import Mathlib

/-!
Shallow embedding of the CUDA bilinear rescaling kernel family of
libavfilter/vf_scale_cuda.cu (conversion functors, the Subsample_Bilinear
kernel body, the compile-time variant instantiation table, and the host-side
chroma-plane dimension computation of scalecuda_resize), together with
theorems settling the documented properties of the scaler.

Machine integers are modelled as Nat with explicit reductions: the C type
`unsigned` is 32 bits wide, `uchar`/`ushort` samples are 8/16 bits wide, and
every place the C code narrows a value the model takes the value modulo the
corresponding power of two.
-/

/-- Modulus of the 32-bit C type `unsigned`: all accumulation in the
conversion functors happens in this type. -/
def U32 : Nat := 2 ^ 32

/-- Macro SHIFTDOWN(val) = (dstbase)(val >> abs(2 + shift)): shift the
32-bit accumulator right by abs (2 + shift) bits, then truncate to the
destination base type of dstBits bits. -/
def SHIFTDOWN (dstBits : Nat) (shift : Int) (val : Nat) : Nat :=
  (val >>> (2 + shift).natAbs) % 2 ^ dstBits

/-- Macro SHIFTUP(val) = (dstbase)(val << abs(-shift - 2)): shift the 32-bit
accumulator left by abs (-shift - 2) bits in 32-bit unsigned arithmetic, then
truncate to the destination base type of dstBits bits. -/
def SHIFTUP (dstBits : Nat) (shift : Int) (val : Nat) : Nat :=
  ((val <<< (-shift - 2).natAbs) % U32) % 2 ^ dstBits

/-- Shift amount of the dither bias in add_conv_shift1_d:
sizeof(SRC) * 8 - dither + 3, computed in the C type int. -/
def ditherBiasShift (srcBytes dither : Nat) : Nat :=
  ((8 * srcBytes : Int) - dither + 3).toNat

/-- Bias term of add_conv_shift1_d: (1 + d) >> (sizeof(SRC) * 8 - dither + 3),
where d is the ushort dither value. -/
def conv_bias_d (srcBytes dither d : Nat) : Nat :=
  (1 + d % 2 ^ 16) >>> ditherBiasShift srcBytes dither

/-- Functor add_conv_shift1_d of vf_scale_cuda.cu: sum the four SRC samples
as unsigned, add the dither bias, then shift down or up depending on the
branch shift > -2 and truncate to the DST sample width. srcBytes and
dstBytes are sizeof(SRC) and sizeof(DST). -/
def add_conv_shift1_d (srcBytes dstBytes : Nat) (shift : Int) (dither : Nat)
    (i1 i2 i3 i4 d : Nat) : Nat :=
  let m := 2 ^ (8 * srcBytes)
  let ret := (i1 % m + i2 % m + i3 % m + i4 % m + conv_bias_d srcBytes dither d) % U32
  if shift > -2 then SHIFTDOWN (8 * dstBytes) shift ret else SHIFTUP (8 * dstBytes) shift ret

/-- Functor add_conv_shift1 of vf_scale_cuda.cu: sum the four SRC samples as
unsigned, add the rounding bias 2, then shift down or up depending on the
branch shift > -2 and truncate to the DST sample width. -/
def add_conv_shift1 (srcBytes dstBytes : Nat) (shift : Int) (dither : Nat)
    (i1 i2 i3 i4 d : Nat) : Nat :=
  let m := 2 ^ (8 * srcBytes)
  let ret := (i1 % m + i2 % m + i3 % m + i4 % m + 2) % U32
  if shift > -2 then SHIFTDOWN (8 * dstBytes) shift ret else SHIFTUP (8 * dstBytes) shift ret

/-- Functor add_conv_shift4 of vf_scale_cuda.cu: per-component sum of four
4-channel samples plus the rounding bias 2, then the same shift and
truncation as the scalar functor, independently per component. -/
def add_conv_shift4 (srcBytes dstBytes : Nat) (shift : Int) (dither : Nat)
    (i1 i2 i3 i4 : Nat × Nat × Nat × Nat) (d : Nat) : Nat × Nat × Nat × Nat :=
  let m := 2 ^ (8 * srcBytes)
  let retx := (i1.1 % m + i2.1 % m + i3.1 % m + i4.1 % m + 2) % U32
  let rety := (i1.2.1 % m + i2.2.1 % m + i3.2.1 % m + i4.2.1 % m + 2) % U32
  let retz := (i1.2.2.1 % m + i2.2.2.1 % m + i3.2.2.1 % m + i4.2.2.1 % m + 2) % U32
  let retw := (i1.2.2.2 % m + i2.2.2.2 % m + i3.2.2.2 % m + i4.2.2.2 % m + 2) % U32
  if shift > -2 then
    (SHIFTDOWN (8 * dstBytes) shift retx, SHIFTDOWN (8 * dstBytes) shift rety,
     SHIFTDOWN (8 * dstBytes) shift retz, SHIFTDOWN (8 * dstBytes) shift retw)
  else
    (SHIFTUP (8 * dstBytes) shift retx, SHIFTUP (8 * dstBytes) shift rety,
     SHIFTUP (8 * dstBytes) shift retz, SHIFTUP (8 * dstBytes) shift retw)

/-- Claim C6: on the non-dithered equal-bit-depth path (add_conv_shift1 with
shift = 0), the functor adds the rounding bias 2 to the four-sample sum and
downshifts by 2 bits, and in particular maps the four samples 10,10,10,10 to
(10 + 10 + 10 + 10 + 2) >>> 2 = 10. -/
theorem add_conv_shift1_round_half_up :
    (∀ b i1 i2 i3 i4 d : Nat,
      add_conv_shift1 b b 0 0 i1 i2 i3 i4 d =
        (((i1 % 2 ^ (8 * b) + i2 % 2 ^ (8 * b) + i3 % 2 ^ (8 * b) + i4 % 2 ^ (8 * b) + 2)
          % U32) >>> 2) % 2 ^ (8 * b)) ∧
    add_conv_shift1 1 1 0 0 10 10 10 10 0 = 10 ∧
    (10 + 10 + 10 + 10 + 2) >>> 2 = 10 := by
  refine ⟨fun b i1 i2 i3 i4 d => ?_, by decide, by decide⟩
  simp [add_conv_shift1, SHIFTDOWN]

/-- Claim C1, counterexample: with equal 8-bit depths (shift = 0) and the
dither template parameter 0 used by the instantiation table, the
dither-capable functor and the non-dithered functor disagree on the samples
0, 0, 1, 1 (with the zero dither value the kernel passes): outputs 0 and 1. -/
theorem shift1_d_vs_shift1_counterexample :
    add_conv_shift1_d 1 1 0 0 0 0 1 1 0 = 0 ∧
    add_conv_shift1 1 1 0 0 0 0 1 1 0 = 1 ∧
    add_conv_shift1_d 1 1 0 0 0 0 1 1 0 ≠ add_conv_shift1 1 1 0 0 0 0 1 1 0 := by
  refine ⟨by decide, by decide, by decide⟩

/-- Claim C1, amended: with equal 8-bit depths the dither-capable functor is
instantiated with dither = 0 and receives dither value 0, so its bias is
(1 + 0) >>> 11 = 0 instead of the rounding bias 2 of the non-dithered
functor: it computes sum >>> 2 while the other computes (sum + 2) >>> 2, and
the two agree exactly when the four-sample sum is congruent to 0 or 1
modulo 4 (in particular on four equal samples), not in general. -/
theorem shift1_d_vs_shift1_equal_depth :
    ∀ i1 i2 i3 i4 : Nat,
      add_conv_shift1_d 1 1 0 0 i1 i2 i3 i4 0 =
        (i1 % 2 ^ 8 + i2 % 2 ^ 8 + i3 % 2 ^ 8 + i4 % 2 ^ 8) >>> 2 ∧
      add_conv_shift1 1 1 0 0 i1 i2 i3 i4 0 =
        (i1 % 2 ^ 8 + i2 % 2 ^ 8 + i3 % 2 ^ 8 + i4 % 2 ^ 8 + 2) >>> 2 ∧
      (add_conv_shift1_d 1 1 0 0 i1 i2 i3 i4 0 = add_conv_shift1 1 1 0 0 i1 i2 i3 i4 0 ↔
        (i1 % 2 ^ 8 + i2 % 2 ^ 8 + i3 % 2 ^ 8 + i4 % 2 ^ 8) % 4 < 2) := by
  intro i1 i2 i3 i4
  have h1 : i1 % 2 ^ 8 < 2 ^ 8 := Nat.mod_lt _ (by norm_num)
  have h2 : i2 % 2 ^ 8 < 2 ^ 8 := Nat.mod_lt _ (by norm_num)
  have h3 : i3 % 2 ^ 8 < 2 ^ 8 := Nat.mod_lt _ (by norm_num)
  have h4 : i4 % 2 ^ 8 < 2 ^ 8 := Nat.mod_lt _ (by norm_num)
  have hbias : conv_bias_d 1 0 0 = 0 := by decide
  have hs32 : (i1 % 2 ^ 8 + i2 % 2 ^ 8 + i3 % 2 ^ 8 + i4 % 2 ^ 8) % U32 =
      i1 % 2 ^ 8 + i2 % 2 ^ 8 + i3 % 2 ^ 8 + i4 % 2 ^ 8 :=
    Nat.mod_eq_of_lt (by simp only [U32]; omega)
  have hs32b : (i1 % 2 ^ 8 + i2 % 2 ^ 8 + i3 % 2 ^ 8 + i4 % 2 ^ 8 + 2) % U32 =
      i1 % 2 ^ 8 + i2 % 2 ^ 8 + i3 % 2 ^ 8 + i4 % 2 ^ 8 + 2 :=
    Nat.mod_eq_of_lt (by simp only [U32]; omega)
  have hd : add_conv_shift1_d 1 1 0 0 i1 i2 i3 i4 0 =
      (i1 % 2 ^ 8 + i2 % 2 ^ 8 + i3 % 2 ^ 8 + i4 % 2 ^ 8) >>> 2 := by
    simp only [add_conv_shift1_d, hbias, SHIFTDOWN, U32]
    norm_num [Nat.shiftRight_eq_div_pow]
    omega
  have hp : add_conv_shift1 1 1 0 0 i1 i2 i3 i4 0 =
      (i1 % 2 ^ 8 + i2 % 2 ^ 8 + i3 % 2 ^ 8 + i4 % 2 ^ 8 + 2) >>> 2 := by
    simp only [add_conv_shift1, SHIFTDOWN, U32]
    norm_num [Nat.shiftRight_eq_div_pow]
    omega
  refine ⟨hd, hp, ?_⟩
  rw [hd, hp, Nat.shiftRight_eq_div_pow, Nat.shiftRight_eq_div_pow]
  norm_num
  omega

/-- The 3-tap filter weight of Subsample_Bilinear, per axis:
w = min(max(0.5 * (scale - 1), 0), 1). The float computation is modelled
over the rationals. -/
def wh (scale : ℚ) : ℚ := min (max (1/2 * (scale - 1)) 0) 1

/-- The two-tap bilinear displacement of Subsample_Bilinear: d = w / (0.5 + w). -/
def dx (w : ℚ) : ℚ := w / (1/2 + w)

/-- Claim C4: for scale ratio at least 1, the weight w = clamp(0.5*(r-1),0,1)
is monotonically non-decreasing in r and lies in the closed interval from 0
to 1, and the displacement d = w / (0.5 + w) lies in the closed interval
from 0 to 2/3. -/
theorem wh_dx_monotone_bounded :
    (∀ r1 r2 : ℚ, 1 ≤ r1 → r1 ≤ r2 → wh r1 ≤ wh r2) ∧
    (∀ r : ℚ, 1 ≤ r → 0 ≤ wh r ∧ wh r ≤ 1) ∧
    (∀ r : ℚ, 1 ≤ r → 0 ≤ dx (wh r) ∧ dx (wh r) ≤ 2/3) := by
  have hb : ∀ r : ℚ, 0 ≤ wh r ∧ wh r ≤ 1 := by
    intro r
    constructor
    · exact le_min (le_max_right _ 0) zero_le_one
    · exact min_le_right _ 1
  refine ⟨fun r1 r2 _ h12 => ?_, fun r _ => hb r, fun r _ => ?_⟩
  · exact min_le_min (max_le_max (by linarith) le_rfl) le_rfl
  · obtain ⟨h0, h1⟩ := hb r
    have hpos : (0:ℚ) < 1/2 + wh r := by linarith
    constructor
    · exact div_nonneg h0 hpos.le
    · rw [dx, div_le_iff₀ hpos]
      linarith

/-- Witness for claim C4 at the concrete downscale ratios 1 and 2. -/
theorem wh_dx_monotone_bounded_witness :
    wh 1 ≤ wh 2 ∧ (0 ≤ wh 2 ∧ wh 2 ≤ 1) ∧ (0 ≤ dx (wh 2) ∧ dx (wh 2) ≤ 2/3) :=
  ⟨wh_dx_monotone_bounded.1 1 2 (by norm_num) (by norm_num),
   wh_dx_monotone_bounded.2.1 2 (by norm_num),
   wh_dx_monotone_bounded.2.2 2 (by norm_num)⟩

/-- Macro AV_CEIL_RSHIFT(a, b) = ((a) + (1 << (b)) - 1) >> (b), the ceiling
right shift used by scalecuda_resize for chroma plane dimensions. -/
def AV_CEIL_RSHIFT (a b : Nat) : Nat := (a + (1 <<< b) - 1) >>> b

/-- Dimension arguments of one cuLaunchKernel issued by call_resize_kernel:
source width and height, destination width and height. -/
structure LaunchDims where
  src_width : Nat
  src_height : Nat
  dst_width : Nat
  dst_height : Nat
deriving DecidableEq

/-- The sequence of kernel launches issued by scalecuda_resize for one frame,
restricted to the dimension arguments: one luma launch at full frame size,
one chroma-u launch and, when a chroma-v function is configured, one
chroma-v launch, both at the AV_CEIL_RSHIFT subsampled sizes. -/
def scalecuda_resize (in_width in_height out_width out_height : Nat)
    (in_log2_chroma_w in_log2_chroma_h out_log2_chroma_w out_log2_chroma_h : Nat)
    (has_chroma_v : Bool) : List LaunchDims :=
  { src_width := in_width, src_height := in_height,
    dst_width := out_width, dst_height := out_height } ::
  { src_width := AV_CEIL_RSHIFT in_width in_log2_chroma_w,
    src_height := AV_CEIL_RSHIFT in_height in_log2_chroma_h,
    dst_width := AV_CEIL_RSHIFT out_width out_log2_chroma_w,
    dst_height := AV_CEIL_RSHIFT out_height out_log2_chroma_h } ::
  (if has_chroma_v then
    [{ src_width := AV_CEIL_RSHIFT in_width in_log2_chroma_w,
       src_height := AV_CEIL_RSHIFT in_height in_log2_chroma_h,
       dst_width := AV_CEIL_RSHIFT out_width out_log2_chroma_w,
       dst_height := AV_CEIL_RSHIFT out_height out_log2_chroma_h }]
   else [])

/-- Claim C3: every chroma kernel launch of scalecuda_resize receives source
and destination dimensions obtained from the luma dimensions by ceiling
division by the chroma subsampling factor: AV_CEIL_RSHIFT is exactly
ceiling division by 2 to the b (least q with a at most q times 2 to the b),
and for 4:2:0 the luma sizes 1920 by 1080 give chroma 960 by 540 while the
odd luma sizes 1921 by 1081 give chroma 961 by 541. -/
theorem scalecuda_resize_chroma_dims :
    (∀ a b : Nat, AV_CEIL_RSHIFT a b = (a + 2 ^ b - 1) / 2 ^ b) ∧
    (∀ a b : Nat, a ≤ 2 ^ b * AV_CEIL_RSHIFT a b) ∧
    (∀ a b c : Nat, a ≤ 2 ^ b * c → AV_CEIL_RSHIFT a b ≤ c) ∧
    (∀ iw ih ow oh ilw ilh olw olh : Nat, ∀ hv : Bool,
      ∀ L ∈ List.drop 1 (scalecuda_resize iw ih ow oh ilw ilh olw olh hv),
        L.src_width = (iw + 2 ^ ilw - 1) / 2 ^ ilw ∧
        L.src_height = (ih + 2 ^ ilh - 1) / 2 ^ ilh ∧
        L.dst_width = (ow + 2 ^ olw - 1) / 2 ^ olw ∧
        L.dst_height = (oh + 2 ^ olh - 1) / 2 ^ olh) ∧
    scalecuda_resize 1920 1080 1920 1080 1 1 1 1 true =
      [⟨1920, 1080, 1920, 1080⟩, ⟨960, 540, 960, 540⟩, ⟨960, 540, 960, 540⟩] ∧
    scalecuda_resize 1921 1081 1921 1081 1 1 1 1 true =
      [⟨1921, 1081, 1921, 1081⟩, ⟨961, 541, 961, 541⟩, ⟨961, 541, 961, 541⟩] := by
  have heq : ∀ a b : Nat, AV_CEIL_RSHIFT a b = (a + 2 ^ b - 1) / 2 ^ b := by
    intro a b
    simp [AV_CEIL_RSHIFT, Nat.shiftLeft_eq, Nat.shiftRight_eq_div_pow]
  have hgc : ∀ b : Nat, GaloisConnection (fun a : Nat => a ⌈/⌉ 2 ^ b)
      (fun c : Nat => 2 ^ b * c) := fun b => gc_mul_ceilDiv (Nat.pos_pow_of_pos b (by norm_num))
  have hceil : ∀ a b : Nat, AV_CEIL_RSHIFT a b = a ⌈/⌉ 2 ^ b := fun a b => heq a b
  refine ⟨heq, fun a b => ?_, fun a b c h => ?_, ?_, ?_, ?_⟩
  · rw [hceil]
    exact (hgc b).le_u_l a
  · rw [hceil]
    exact (hgc b).l_le h
  · intro iw ih ow oh ilw ilh olw olh hv L hL
    have : L = { src_width := AV_CEIL_RSHIFT iw ilw, src_height := AV_CEIL_RSHIFT ih ilh,
                 dst_width := AV_CEIL_RSHIFT ow olw, dst_height := AV_CEIL_RSHIFT oh olh } := by
      simp only [scalecuda_resize, List.drop] at hL
      cases hv <;> simp_all
    rw [this]
    exact ⟨heq iw ilw, heq ih ilh, heq ow olw, heq oh olh⟩
  · decide
  · decide

/-- The unsigned accumulation made by the conversion functors before any
reduction: the four SRC samples (each truncated to the SRC width by its
type) plus a bias term. -/
def accum (srcBytes bias i1 i2 i3 i4 : Nat) : Nat :=
  i1 % 2 ^ (8 * srcBytes) + i2 % 2 ^ (8 * srcBytes) + i3 % 2 ^ (8 * srcBytes)
    + i4 % 2 ^ (8 * srcBytes) + bias

/-- Claim C5: the conversion functors shift the accumulated sum right by
2 + shift bits when shift > -2, and otherwise left by -shift - 2 bits, then
truncate to the destination sample width; the branch condition selecting
downshift versus upshift is exactly shift > -2. -/
theorem conv_shift_branch (dstBits : Nat) (shift : Int) (val : Nat)
    (srcBytes dstBytes dither i1 i2 i3 i4 d : Nat) :
    (shift > -2 → SHIFTDOWN dstBits shift val = (val >>> (2 + shift).toNat) % 2 ^ dstBits) ∧
    (¬shift > -2 → SHIFTUP dstBits shift val = ((val <<< (-shift - 2).toNat) % U32) % 2 ^ dstBits) ∧
    (add_conv_shift1 srcBytes dstBytes shift dither i1 i2 i3 i4 d =
      if shift > -2 then SHIFTDOWN (8 * dstBytes) shift (accum srcBytes 2 i1 i2 i3 i4 % U32)
      else SHIFTUP (8 * dstBytes) shift (accum srcBytes 2 i1 i2 i3 i4 % U32)) ∧
    (add_conv_shift1_d srcBytes dstBytes shift dither i1 i2 i3 i4 d =
      if shift > -2 then
        SHIFTDOWN (8 * dstBytes) shift
          (accum srcBytes (conv_bias_d srcBytes dither d) i1 i2 i3 i4 % U32)
      else
        SHIFTUP (8 * dstBytes) shift
          (accum srcBytes (conv_bias_d srcBytes dither d) i1 i2 i3 i4 % U32)) := by
  refine ⟨fun h => ?_, fun h => ?_, ?_, ?_⟩
  · have habs : (2 + shift).natAbs = (2 + shift).toNat := by omega
    rw [SHIFTDOWN, habs]
  · have habs : (-shift - 2).natAbs = (-shift - 2).toNat := by omega
    rw [SHIFTUP, habs]
  · simp [add_conv_shift1, accum]
  · simp [add_conv_shift1_d, accum]

/-- Witness for claim C5: the downshift branch at shift 0 and the upshift
branch at shift -8 (the 8-bit to 16-bit widening instantiation). -/
theorem conv_shift_branch_witness :
    SHIFTDOWN 8 0 42 = (42 >>> (2 + (0:Int)).toNat) % 2 ^ 8 ∧
    SHIFTUP 16 (-8) 42 = ((42 <<< (-(-8:Int) - 2).toNat) % U32) % 2 ^ 16 :=
  ⟨(conv_shift_branch 8 0 42 1 1 0 0 0 0 0 0).1 (by decide),
   (conv_shift_branch 16 (-8) 42 1 2 0 0 0 0 0 0).2.1 (by decide)⟩

/-- Claim C9: for valid inputs (source samples 8 or 16 bits wide, so
srcBytes is at most 2, and a 16-bit dither value), the unsigned accumulation
of the four samples plus the rounding or dither bias stays strictly below
2 to the 32, so no modular wraparound occurs in any conversion functor: each
functor computes its shift on the exact sum. -/
theorem conv_accum_no_overflow (srcBytes dstBytes : Nat) (shift : Int)
    (dither : Nat) (i1 i2 i3 i4 d : Nat) (t1 t2 t3 t4 : Nat × Nat × Nat × Nat)
    (hb : srcBytes ≤ 2) :
    accum srcBytes (conv_bias_d srcBytes dither d) i1 i2 i3 i4 < U32 ∧
    accum srcBytes 2 i1 i2 i3 i4 < U32 ∧
    add_conv_shift1_d srcBytes dstBytes shift dither i1 i2 i3 i4 d =
      (if shift > -2 then
        SHIFTDOWN (8 * dstBytes) shift (accum srcBytes (conv_bias_d srcBytes dither d) i1 i2 i3 i4)
       else
        SHIFTUP (8 * dstBytes) shift (accum srcBytes (conv_bias_d srcBytes dither d) i1 i2 i3 i4)) ∧
    add_conv_shift1 srcBytes dstBytes shift dither i1 i2 i3 i4 d =
      (if shift > -2 then SHIFTDOWN (8 * dstBytes) shift (accum srcBytes 2 i1 i2 i3 i4)
       else SHIFTUP (8 * dstBytes) shift (accum srcBytes 2 i1 i2 i3 i4)) ∧
    add_conv_shift4 srcBytes dstBytes shift dither t1 t2 t3 t4 d =
      (if shift > -2 then
        (SHIFTDOWN (8 * dstBytes) shift (accum srcBytes 2 t1.1 t2.1 t3.1 t4.1),
         SHIFTDOWN (8 * dstBytes) shift (accum srcBytes 2 t1.2.1 t2.2.1 t3.2.1 t4.2.1),
         SHIFTDOWN (8 * dstBytes) shift (accum srcBytes 2 t1.2.2.1 t2.2.2.1 t3.2.2.1 t4.2.2.1),
         SHIFTDOWN (8 * dstBytes) shift (accum srcBytes 2 t1.2.2.2 t2.2.2.2 t3.2.2.2 t4.2.2.2))
       else
        (SHIFTUP (8 * dstBytes) shift (accum srcBytes 2 t1.1 t2.1 t3.1 t4.1),
         SHIFTUP (8 * dstBytes) shift (accum srcBytes 2 t1.2.1 t2.2.1 t3.2.1 t4.2.1),
         SHIFTUP (8 * dstBytes) shift (accum srcBytes 2 t1.2.2.1 t2.2.2.1 t3.2.2.1 t4.2.2.1),
         SHIFTUP (8 * dstBytes) shift (accum srcBytes 2 t1.2.2.2 t2.2.2.2 t3.2.2.2 t4.2.2.2))) := by
  have hm : 2 ^ (8 * srcBytes) ≤ 2 ^ 16 := Nat.pow_le_pow_right (by norm_num) (by omega)
  have hterm : ∀ x : Nat, x % 2 ^ (8 * srcBytes) < 2 ^ 16 := fun x =>
    lt_of_lt_of_le (Nat.mod_lt _ (Nat.pos_pow_of_pos _ (by norm_num))) hm
  have hbias : conv_bias_d srcBytes dither d ≤ 2 ^ 16 := by
    have hd16 : d % 2 ^ 16 < 2 ^ 16 := Nat.mod_lt _ (by norm_num)
    have hle : (1 + d % 2 ^ 16) >>> ditherBiasShift srcBytes dither ≤ 1 + d % 2 ^ 16 := by
      rw [Nat.shiftRight_eq_div_pow]
      exact Nat.div_le_self _ _
    rw [conv_bias_d]
    omega
  have hkey : ∀ bias j1 j2 j3 j4 : Nat, bias ≤ 2 ^ 16 →
      j1 % 2 ^ (8 * srcBytes) + j2 % 2 ^ (8 * srcBytes) + j3 % 2 ^ (8 * srcBytes)
        + j4 % 2 ^ (8 * srcBytes) + bias < U32 := by
    intro bias j1 j2 j3 j4 hb2
    have g1 := hterm j1
    have g2 := hterm j2
    have g3 := hterm j3
    have g4 := hterm j4
    simp only [U32]
    omega
  refine ⟨?_, ?_, ?_, ?_, ?_⟩
  · simp only [accum]
    exact hkey _ i1 i2 i3 i4 hbias
  · simp only [accum]
    exact hkey 2 i1 i2 i3 i4 (by norm_num)
  · simp only [add_conv_shift1_d, accum]
    rw [Nat.mod_eq_of_lt (hkey _ i1 i2 i3 i4 hbias)]
  · simp only [add_conv_shift1, accum]
    rw [Nat.mod_eq_of_lt (hkey 2 i1 i2 i3 i4 (by norm_num))]
  · simp only [add_conv_shift4, accum]
    rw [Nat.mod_eq_of_lt (hkey 2 t1.1 t2.1 t3.1 t4.1 (by norm_num)),
        Nat.mod_eq_of_lt (hkey 2 t1.2.1 t2.2.1 t3.2.1 t4.2.1 (by norm_num)),
        Nat.mod_eq_of_lt (hkey 2 t1.2.2.1 t2.2.2.1 t3.2.2.1 t4.2.2.1 (by norm_num)),
        Nat.mod_eq_of_lt (hkey 2 t1.2.2.2 t2.2.2.2 t3.2.2.2 t4.2.2.2 (by norm_num))]

/-- Witness for claim C9 at the 16-bit to 8-bit narrowing instantiation with
concrete samples. -/
theorem conv_accum_no_overflow_witness :
    accum 2 (conv_bias_d 2 1 40000) 60000 60000 60000 60000 < U32 ∧
    accum 2 2 60000 60000 60000 60000 < U32 :=
  ⟨(conv_accum_no_overflow 2 1 8 1 60000 60000 60000 60000 40000
      (0,0,0,0) (0,0,0,0) (0,0,0,0) (0,0,0,0) (by norm_num)).1,
   (conv_accum_no_overflow 2 1 8 1 60000 60000 60000 60000 40000
      (0,0,0,0) (0,0,0,0) (0,0,0,0) (0,0,0,0) (by norm_num)).2.1⟩

/-- The dither template argument the macro VARIANTSET2 passes to its first
(dither-capable) variant: (sizeof(DST) < sizeof(SRC)) ? sizeof(DST) : 0. -/
def variantDitherArg (srcBytes dstBytes : Nat) : Nat :=
  if dstBytes < srcBytes then dstBytes else 0

/-- Template arguments of one instantiated kernel variant. -/
structure Variant where
  srcBytes : Nat
  dstBytes : Nat
  channels : Nat
  shift : Int
  pitch : Nat
  dither : Nat
deriving DecidableEq

/-- Macro VARIANTSET2(SRC, DST, SHIFT, NAME): the seven kernel variants
instantiated for one SRC/DST pair, with their template arguments. Only the
first one (the add_conv_shift1_d instantiation) receives a possibly nonzero
dither argument. -/
def VARIANTSET2 (srcB dstB : Nat) (shift : Int) : List Variant :=
  [{ srcBytes := srcB, dstBytes := dstB, channels := 1, shift := shift, pitch := 1,
     dither := variantDitherArg srcB dstB },
   { srcBytes := srcB, dstBytes := dstB, channels := 1, shift := shift, pitch := 1, dither := 0 },
   { srcBytes := srcB, dstBytes := dstB, channels := 1, shift := shift, pitch := 2, dither := 0 },
   { srcBytes := srcB, dstBytes := dstB, channels := 2, shift := shift, pitch := 1, dither := 0 },
   { srcBytes := srcB, dstBytes := dstB, channels := 2, shift := shift, pitch := 1, dither := 0 },
   { srcBytes := srcB, dstBytes := dstB, channels := 2, shift := shift, pitch := 1, dither := 0 },
   { srcBytes := srcB, dstBytes := dstB, channels := 4, shift := shift, pitch := 1, dither := 0 }]

/-- All 28 kernel instantiations of vf_scale_cuda.cu: VARIANTSET for the
8 to 8, 16 to 16, 8 to 16 and 16 to 8 bit depth pairs, each with
SHIFT = SRCSIZE - DSTSIZE. -/
def allVariants : List Variant :=
  VARIANTSET2 1 1 (8 - 8) ++ VARIANTSET2 2 2 (16 - 16) ++
    VARIANTSET2 1 2 (8 - 16) ++ VARIANTSET2 2 1 (16 - 8)

/-- From cudascale_config_props: whether the host runs
cudascale_setup_dither, namely exactly when the input component depth
exceeds the output component depth. -/
def setup_dither_called (inDepth outDepth : Nat) : Bool := outDepth < inDepth

/-- Per-pixel dither value read by Subsample_Bilinear:
dither ? tex2D(ditherTex, xo, yo) : 0, with the dither texture modelled as
an explicit function of the destination coordinates. -/
def ditherVal (dither : Nat) (ditherTexF : Nat → Nat → Nat) (xo yo : Nat) : Nat :=
  if dither ≠ 0 then ditherTexF xo yo else 0

/-- Claim C7: the dither template argument of every instantiated kernel
variant is nonzero only when sizeof(DST) < sizeof(SRC); the host initializes
the dither matrix if and only if the input component depth exceeds the
output component depth; and with a zero dither argument the per-pixel dither
value read by the kernel is 0. -/
theorem dithering_only_when_narrowing :
    (∀ v ∈ allVariants, v.dither ≠ 0 → v.dstBytes < v.srcBytes) ∧
    (∀ inDepth outDepth : Nat,
      setup_dither_called inDepth outDepth = true ↔ outDepth < inDepth) ∧
    (∀ f : Nat → Nat → Nat, ∀ xo yo : Nat, ditherVal 0 f xo yo = 0) := by
  refine ⟨by decide, fun inD outD => ?_, fun f xo yo => ?_⟩
  · simp [setup_dither_called]
  · simp [ditherVal]

/-- Witness for claim C7: the 16-bit to 8-bit dither-capable variant is
narrowing, the host sets up dithering for 16-bit input and 8-bit output, and
the dither value read with a zero dither argument is 0. -/
theorem dithering_only_when_narrowing_witness :
    ({ srcBytes := 2, dstBytes := 1, channels := 1, shift := 8, pitch := 1,
       dither := 1 } : Variant).dstBytes <
      ({ srcBytes := 2, dstBytes := 1, channels := 1, shift := 8, pitch := 1,
         dither := 1 } : Variant).srcBytes ∧
    setup_dither_called 16 8 = true ∧
    ditherVal 0 (fun _ _ => 9) 3 4 = 0 :=
  ⟨dithering_only_when_narrowing.1 _ (by decide) (by decide),
   (dithering_only_when_narrowing.2.1 16 8).mpr (by norm_num),
   dithering_only_when_narrowing.2.2 (fun _ _ => 9) 3 4⟩

/-- Modelled from the spec: the dither texture fetch at destination
coordinate (x, y). The host creates the dither texture over the square
ff_fruit_dither_matrix of 16-bit entries, and the matrix is tiled across the
destination plane by coordinate modulo the matrix size; the wrap addressing
itself is performed by the CUDA texture unit, which is outside the
translated source. -/
def ditherTexRead (matrix : Nat → Nat → Nat) (size x y : Nat) : Nat :=
  matrix (x % size) (y % size)

/-- Claim C8: in the dither-capable variant as instantiated by VARIANTSET2,
the per-pixel bias added to the four-sample sum equals
(1 + ditherValue) >>> (bitsInSourceSample - ditherLevels + 3), where
bitsInSourceSample is 8 times the source sample byte width, ditherLevels is
the destination sample byte width when narrowing and 0 otherwise, and
ditherValue is the dither matrix entry at (x mod size, y mod size) for
destination coordinate (x, y). -/
theorem dither_bias_formula (srcBytes dstBytes : Nat) (shift : Int)
    (matrix : Nat → Nat → Nat) (size x y i1 i2 i3 i4 : Nat)
    (hm : ∀ a b, matrix a b < 2 ^ 16) :
    ditherTexRead matrix size x y = matrix (x % size) (y % size) ∧
    conv_bias_d srcBytes (variantDitherArg srcBytes dstBytes) (ditherTexRead matrix size x y) =
      (1 + matrix (x % size) (y % size)) >>>
        (8 * srcBytes - variantDitherArg srcBytes dstBytes + 3) ∧
    add_conv_shift1_d srcBytes dstBytes shift (variantDitherArg srcBytes dstBytes)
        i1 i2 i3 i4 (ditherTexRead matrix size x y) =
      (if shift > -2 then
        SHIFTDOWN (8 * dstBytes) shift
          (accum srcBytes
            ((1 + matrix (x % size) (y % size)) >>>
              (8 * srcBytes - variantDitherArg srcBytes dstBytes + 3)) i1 i2 i3 i4 % U32)
       else
        SHIFTUP (8 * dstBytes) shift
          (accum srcBytes
            ((1 + matrix (x % size) (y % size)) >>>
              (8 * srcBytes - variantDitherArg srcBytes dstBytes + 3)) i1 i2 i3 i4 % U32)) := by
  have hdv : variantDitherArg srcBytes dstBytes ≤ 8 * srcBytes := by
    rw [variantDitherArg]
    split <;> omega
  have hshift : ditherBiasShift srcBytes (variantDitherArg srcBytes dstBytes) =
      8 * srcBytes - variantDitherArg srcBytes dstBytes + 3 := by
    rw [ditherBiasShift]
    omega
  have hc : conv_bias_d srcBytes (variantDitherArg srcBytes dstBytes)
      (ditherTexRead matrix size x y) =
      (1 + matrix (x % size) (y % size)) >>>
        (8 * srcBytes - variantDitherArg srcBytes dstBytes + 3) := by
    rw [conv_bias_d, hshift, ditherTexRead, Nat.mod_eq_of_lt (hm _ _)]
  refine ⟨rfl, hc, ?_⟩
  simp only [add_conv_shift1_d, accum, hc]

/-- Witness for claim C8 at a concrete 16-bit to 8-bit configuration with a
constant dither matrix. -/
theorem dither_bias_formula_witness :
    ditherTexRead (fun _ _ => 7) 8 13 5 = 7 ∧
    conv_bias_d 2 (variantDitherArg 2 1) (ditherTexRead (fun _ _ => 7) 8 13 5) =
      (1 + 7) >>> (8 * 2 - variantDitherArg 2 1 + 3) :=
  ⟨(dither_bias_formula 2 1 8 (fun _ _ => 7) 8 13 5 0 0 0 0
      (fun a b => by norm_num)).1,
   (dither_bias_formula 2 1 8 (fun _ _ => 7) 8 13 5 0 0 0 0
      (fun a b => by norm_num)).2.1⟩

/-- Horizontal or vertical scale factor of Subsample_Bilinear:
(float)src / (float)dst, modelled over the rationals. -/
def hscale (src dst : Nat) : ℚ := (src : ℚ) / (dst : ℚ)

/-- Source-space coordinate of the destination pixel center:
(xo + 0.5) * scale. -/
def srcCenter (xo : Nat) (scale : ℚ) : ℚ := ((xo : ℚ) + 1/2) * scale

/-- Kernel body Subsample_Bilinear of vf_scale_cuda.cu for the thread at
destination coordinate (xo, yo). The bilinear texture unit is modelled as an
explicit function tex from source coordinates to sample values, and the
destination plane as a function from linear element indices to values; the
result is the destination memory after the thread runs. -/
def Subsample_Bilinear (conv : Nat → Nat → Nat → Nat → Nat → Nat)
    (pitch dither : Nat) (tex : ℚ → ℚ → Nat) (ditherTexF : Nat → Nat → Nat)
    (dstSize : Nat) (dst : Nat → Nat)
    (dst_width dst_height dst_pitch src_width src_height xo yo : Nat) : Nat → Nat :=
  if yo < dst_height ∧ xo < dst_width then
    let hs := hscale src_width dst_width
    let vs := hscale src_height dst_height
    let xiv := srcCenter xo hs
    let yiv := srcCenter yo vs
    let dxv := dx (wh hs)
    let dyv := dx (wh vs)
    let i0 := tex (xiv - dxv) (yiv - dyv)
    let i1 := tex (xiv + dxv) (yiv - dyv)
    let i2 := tex (xiv - dxv) (yiv + dyv)
    let i3 := tex (xiv + dxv) (yiv + dyv)
    Function.update dst (yo * (dst_pitch / dstSize) + xo * pitch)
      (conv i0 i1 i2 i3 (ditherVal dither ditherTexF xo yo))
  else dst

/-- Claim C10: the Subsample_Bilinear thread at (xo, yo) writes destination
memory if and only if xo < dst_width and yo < dst_height, and then writes
exactly one element, at linear index yo * (dst_pitch / dstSize) + xo * pitch;
every other destination location is left unchanged. -/
theorem Subsample_Bilinear_write_set
    (conv : Nat → Nat → Nat → Nat → Nat → Nat) (pitch dither : Nat)
    (tex : ℚ → ℚ → Nat) (ditherTexF : Nat → Nat → Nat) (dstSize : Nat)
    (dst : Nat → Nat) (dst_width dst_height dst_pitch src_width src_height xo yo : Nat) :
    ((yo < dst_height ∧ xo < dst_width) →
      ∃ v, Subsample_Bilinear conv pitch dither tex ditherTexF dstSize dst
          dst_width dst_height dst_pitch src_width src_height xo yo =
        Function.update dst (yo * (dst_pitch / dstSize) + xo * pitch) v) ∧
    (¬(yo < dst_height ∧ xo < dst_width) →
      Subsample_Bilinear conv pitch dither tex ditherTexF dstSize dst
          dst_width dst_height dst_pitch src_width src_height xo yo = dst) ∧
    (∀ j, j ≠ yo * (dst_pitch / dstSize) + xo * pitch →
      Subsample_Bilinear conv pitch dither tex ditherTexF dstSize dst
          dst_width dst_height dst_pitch src_width src_height xo yo j = dst j) := by
  refine ⟨fun h => ?_, fun h => ?_, fun j hj => ?_⟩
  · simp only [Subsample_Bilinear]
    rw [if_pos h]
    exact ⟨_, rfl⟩
  · simp only [Subsample_Bilinear]
    rw [if_neg h]
  · by_cases h : yo < dst_height ∧ xo < dst_width
    · simp only [Subsample_Bilinear]
      rw [if_pos h]
      exact Function.update_noteq hj _ _
    · simp only [Subsample_Bilinear]
      rw [if_neg h]

/-- Witness for claim C10: a 1 by 1 destination with the thread at (0, 0)
writing index 0 and leaving index 3 unchanged. -/
theorem Subsample_Bilinear_write_set_witness :
    (∃ v, Subsample_Bilinear (fun a _ _ _ _ => a) 1 0 (fun _ _ => 7) (fun _ _ => 0) 1
        (fun _ => 5) 1 1 1 1 1 0 0 = Function.update (fun _ => 5) 0 v) ∧
    Subsample_Bilinear (fun a _ _ _ _ => a) 1 0 (fun _ _ => 7) (fun _ _ => 0) 1
        (fun _ => 5) 1 1 1 1 1 0 0 3 = 5 :=
  ⟨(Subsample_Bilinear_write_set (fun a _ _ _ _ => a) 1 0 (fun _ _ => 7) (fun _ _ => 0) 1
      (fun _ => 5) 1 1 1 1 1 0 0).1 ⟨by norm_num, by norm_num⟩,
   (Subsample_Bilinear_write_set (fun a _ _ _ _ => a) 1 0 (fun _ _ => 7) (fun _ _ => 0) 1
      (fun _ => 5) 1 1 1 1 1 0 0).2.2 3 (by norm_num)⟩

/-- The unshifted equal-depth conversion maps four equal in-range samples to
that same sample value. -/
theorem add_conv_shift1_four_equal (b v : Nat) (hb : b ≤ 2) (hv : v < 2 ^ (8 * b)) :
    add_conv_shift1 b b 0 0 v v v v 0 = v := by
  have hm : v % 2 ^ (8 * b) = v := Nat.mod_eq_of_lt hv
  have hv16 : v < 2 ^ 16 :=
    lt_of_lt_of_le hv (Nat.pow_le_pow_right (by norm_num) (by omega))
  have h32 : (v + v + v + v + 2) % U32 = v + v + v + v + 2 := by
    rw [U32]
    apply Nat.mod_eq_of_lt
    omega
  simp only [add_conv_shift1, hm, h32]
  rw [if_pos (by norm_num : (0:Int) > -2)]
  simp only [SHIFTDOWN]
  norm_num [Nat.shiftRight_eq_div_pow]
  have hdiv : (v + v + v + v + 2) / 4 = v := by omega
  rw [hdiv, hm]

/-- Claim C2: at scale ratio exactly 1 on both axes, both 3-tap weights
compute to 0, both displacements compute to 0, the four texture taps
coincide at the destination pixel center mapped into source space, and on
the unshifted equal-depth path the written output sample equals the input
sample read at that center. -/
theorem identity_at_unit_scale (b : Nat) (tex : ℚ → ℚ → Nat)
    (ditherTexF : Nat → Nat → Nat) (dst : Nat → Nat)
    (dst_width dst_height dst_pitch src_width src_height xo yo v : Nat)
    (hw : src_width = dst_width) (hh : src_height = dst_height)
    (hw0 : 0 < dst_width) (hh0 : 0 < dst_height)
    (hx : xo < dst_width) (hy : yo < dst_height)
    (hb : b ≤ 2) (hv : v < 2 ^ (8 * b))
    (htex : tex ((xo : ℚ) + 1/2) ((yo : ℚ) + 1/2) = v) :
    wh (hscale src_width dst_width) = 0 ∧
    wh (hscale src_height dst_height) = 0 ∧
    dx (wh (hscale src_width dst_width)) = 0 ∧
    dx (wh (hscale src_height dst_height)) = 0 ∧
    srcCenter xo (hscale src_width dst_width) = (xo : ℚ) + 1/2 ∧
    srcCenter yo (hscale src_height dst_height) = (yo : ℚ) + 1/2 ∧
    Subsample_Bilinear (add_conv_shift1 b b 0 0) 1 0 tex ditherTexF b dst
        dst_width dst_height dst_pitch src_width src_height xo yo
        (yo * (dst_pitch / b) + xo * 1) = v := by
  subst hw
  subst hh
  have hsw : hscale src_width src_width = 1 := div_self (Nat.cast_ne_zero.mpr hw0.ne')
  have hsh : hscale src_height src_height = 1 := div_self (Nat.cast_ne_zero.mpr hh0.ne')
  have hwh : wh 1 = 0 := by norm_num [wh]
  have hdx : dx 0 = 0 := by norm_num [dx]
  have hcx : srcCenter xo (1:ℚ) = (xo : ℚ) + 1/2 := by rw [srcCenter, mul_one]
  have hcy : srcCenter yo (1:ℚ) = (yo : ℚ) + 1/2 := by rw [srcCenter, mul_one]
  refine ⟨by rw [hsw, hwh], by rw [hsh, hwh], by rw [hsw, hwh, hdx],
    by rw [hsh, hwh, hdx], by rw [hsw, hcx], by rw [hsh, hcy], ?_⟩
  simp only [Subsample_Bilinear]
  rw [if_pos ⟨hy, hx⟩, hsw, hsh, hwh, hdx, hcx, hcy]
  simp only [sub_zero, add_zero, htex]
  simp only [ditherVal, if_neg (by norm_num : ¬(0:Nat) ≠ 0)]
  rw [Function.update_same]
  exact add_conv_shift1_four_equal b v hb hv

/-- Witness for claim C2: a 1 by 1 plane holding the sample 10 is mapped to
itself. -/
theorem identity_at_unit_scale_witness :
    wh (hscale 1 1) = 0 ∧
    wh (hscale 1 1) = 0 ∧
    dx (wh (hscale 1 1)) = 0 ∧
    dx (wh (hscale 1 1)) = 0 ∧
    srcCenter 0 (hscale 1 1) = ((0:Nat) : ℚ) + 1/2 ∧
    srcCenter 0 (hscale 1 1) = ((0:Nat) : ℚ) + 1/2 ∧
    Subsample_Bilinear (add_conv_shift1 1 1 0 0) 1 0 (fun _ _ => 10) (fun _ _ => 0) 1
        (fun _ => 0) 1 1 1 1 1 0 0 (0 * (1 / 1) + 0 * 1) = 10 :=
  identity_at_unit_scale 1 (fun _ _ => 10) (fun _ _ => 0) (fun _ => 0)
    1 1 1 1 1 0 0 10 rfl rfl (by norm_num) (by norm_num) (by norm_num) (by norm_num)
    (by norm_num) (by norm_num) rfl

/-- Witness for claim C3: minimality of the ceiling shift at 1921 over 961,
and the chroma-u launch of a 4:2:0 1920 by 1080 frame. -/
theorem scalecuda_resize_chroma_dims_witness :
    AV_CEIL_RSHIFT 1921 1 ≤ 961 ∧
    (({ src_width := 960, src_height := 540, dst_width := 960, dst_height := 540 }
        : LaunchDims).src_width = (1920 + 2 ^ 1 - 1) / 2 ^ 1 ∧
     ({ src_width := 960, src_height := 540, dst_width := 960, dst_height := 540 }
        : LaunchDims).src_height = (1080 + 2 ^ 1 - 1) / 2 ^ 1 ∧
     ({ src_width := 960, src_height := 540, dst_width := 960, dst_height := 540 }
        : LaunchDims).dst_width = (1920 + 2 ^ 1 - 1) / 2 ^ 1 ∧
     ({ src_width := 960, src_height := 540, dst_width := 960, dst_height := 540 }
        : LaunchDims).dst_height = (1080 + 2 ^ 1 - 1) / 2 ^ 1) :=
  ⟨scalecuda_resize_chroma_dims.2.2.1 1921 1 961 (by norm_num),
   scalecuda_resize_chroma_dims.2.2.2.1 1920 1080 1920 1080 1 1 1 1 true
     { src_width := 960, src_height := 540, dst_width := 960, dst_height := 540 }
     (by decide)⟩
